/-
Verification of the consensus & escalation engine of the
Literature-download-and-data-extraction repository.

The Python sources embedded here:
  - src/etl_ensemble/consensus_engine.py   (is_number, numeric_close,
    compare_field_values, compare_outputs)
  - src/etl_ensemble/llm_multi_client.py   (MultiModelClient.extract)
  - src/etl_ensemble/focused_reextractor.py (reextract)
  - src/nfp_etl_multi/review_manager.py    (save_review_case)
  - src/run_etl_ensemble.py                (run_one_pdf)

JSON-shaped Python values are modelled by the inductive `JVal`; Python's
`None` is `JVal.jnull`, and a dict lookup that misses is coerced to `jnull`
exactly as Python's `dict.get` returns `None`.  Python floats are modelled
as rationals (`ℚ`): every numeric example in the sources and the spec is a
short decimal, where float arithmetic and rational arithmetic coincide.
`float(s)` on strings is modelled for plain decimal literals (optional
sign, digits, optional fraction), the only shapes the claims exercise.
-/
import Mathlib

namespace EtlEnsemble

/-- A JSON-shaped Python value (`None`, bool, number, string, object). -/
inductive JVal where
  | jnull : JVal
  | jbool (b : Bool) : JVal
  | jnum (q : ℚ) : JVal
  | jstr (s : String) : JVal
  | jobj (fs : List (String × JVal)) : JVal

namespace JVal

/-- First-match association-list lookup: Python `dict[k]` / `dict.get(k)`
with `none` for a missing key. -/
def lookup (k : String) : List (String × JVal) → Option JVal
  | [] => none
  | (k', v) :: rest => if k' = k then some v else lookup k rest

/-- Python `k in d`. -/
def hasKey (k : String) (fs : List (String × JVal)) : Bool :=
  (lookup k fs).isSome

/-- Coerce an optional lookup result to a Python value: a missing key reads
as `None`, exactly `dict.get`'s behaviour. -/
def toPy : Option JVal → JVal
  | none => jnull
  | some v => v

/-- Python truthiness test (`or {}` coalescing in `compare_outputs`). -/
def isFalsy : JVal → Bool
  | jnull => true
  | jbool b => !b
  | jnum q => q = 0
  | jstr s => s = ""
  | jobj fs => fs.isEmpty

end JVal

open JVal

/-- Numeric value of a digit list (0 on the empty list, as an accumulator). -/
def digitsVal (cs : List Char) : Nat :=
  cs.foldl (fun n c => n * 10 + (c.toNat - 48)) 0

/-- Python `str.strip()`: drop whitespace from both ends. -/
def pyStrip (cs : List Char) : List Char :=
  ((cs.dropWhile Char.isWhitespace).reverse.dropWhile Char.isWhitespace).reverse

/-- Python `float(s)` on a plain decimal string literal: optional
surrounding whitespace, optional sign, digits with an optional fractional
part.  (Exponent forms, `inf` and `nan` are outside the fragment the
sources' data ever takes.) -/
def pyFloatOfString (s : String) : Option ℚ :=
  let cs := pyStrip s.data
  let signed : ℚ × List Char :=
    match cs with
    | '-' :: r => (-1, r)
    | '+' :: r => (1, r)
    | r => (1, r)
  let sign := signed.1
  let rest := signed.2
  match rest.splitOn '.' with
  | [intPart] =>
      if intPart.isEmpty ∨ ¬ intPart.all Char.isDigit then none
      else some (sign * (digitsVal intPart : ℚ))
  | [intPart, fracPart] =>
      if (intPart.isEmpty ∧ fracPart.isEmpty) ∨
         ¬ intPart.all Char.isDigit ∨ ¬ fracPart.all Char.isDigit then none
      else some (sign * ((digitsVal intPart : ℚ) +
        (digitsVal fracPart : ℚ) / ((10 : ℚ) ^ fracPart.length)))
  | _ => none

/-- Python `float(x)` on a JSON-shaped value: numbers and numeric strings
parse, booleans are 1/0, `None` and containers raise (`none`). -/
def pyFloat : JVal → Option ℚ
  | JVal.jnull => none
  | JVal.jbool b => some (if b then 1 else 0)
  | JVal.jnum q => some q
  | JVal.jstr s => pyFloatOfString s
  | JVal.jobj _ => none

/-- `is_number` from consensus_engine.py: `float(x)` succeeds. -/
def is_number (x : JVal) : Bool :=
  (pyFloat x).isSome

/-- `numeric_close` from consensus_engine.py on parsed values:
`math.isclose(a, b, rel_tol, abs_tol)`, i.e.
`|a-b| <= max(rel_tol * max(|a|, |b|), abs_tol)` for finite values. -/
def numeric_close (a b : ℚ) (rel_tol abs_tol : ℚ) : Bool :=
  |a - b| ≤ max (rel_tol * max |a| |b|) abs_tol

/-- Python `str(x)` for the value shapes the string branch ever sees.
Rationals are rendered as decimals when exact (the only numeric strings the
claims exercise are built from string candidates, so this rendering is
never load-bearing in a proof). -/
def pyStr : JVal → String
  | JVal.jnull => "None"
  | JVal.jbool b => if b then "True" else "False"
  | JVal.jnum q => toString q.num ++ "/" ++ toString q.den
  | JVal.jstr s => s
  | JVal.jobj _ => "\x7b...\x7d"

/-- One step of whitespace-run collapsing (accumulator is the reversed
output and a flag: currently inside a whitespace run). -/
def collapseStep : List Char × Bool → Char → List Char × Bool
  | (acc, inWs), c =>
    if c.isWhitespace then
      if inWs then (acc, true) else (' ' :: acc, true)
    else (c :: acc, false)

/-- `re.sub(r'\s+', ' ', s)`: collapse every whitespace run to one space. -/
def collapseChars (cs : List Char) : List Char :=
  ((cs.foldl collapseStep ([], false)).1).reverse

/-- The `norm` lambda of the string branch:
`re.sub(r'\s+', ' ', str(s).strip().lower())` — strip, then case-fold
per character, then collapse whitespace runs. -/
def norm (x : JVal) : String :=
  String.mk (collapseChars ((pyStrip (pyStr x).data).map Char.toLower))

/-- One element of the `vals` list handed to `compare_field_values`:
a Python dict with keys `model_id`, `field`, optionally `value`,
optionally `resp`.  `valueKey = none` means the `value` key is absent;
`some jnull` means it is present and maps to `None` (what
`compare_outputs` always builds). -/
structure Holder where
  model_id : String
  field : String
  valueKey : Option JVal
  resp : Option JVal

/-- The candidate-extraction step at the top of `compare_field_values`:

    resp = v.get('resp')
    if isinstance(resp, dict) and isinstance(resp.get(v.get('field')), dict) \
        and 'value' in resp.get(v.get('field')):
      value = resp.get(v.get('field'))['value']
    else:
      value = v.get('value') if 'value' in v \
        else resp.get(v.get('field')) if isinstance(resp, dict) else resp
-/
def getValue (v : Holder) : JVal :=
  let fallback : JVal :=
    match v.valueKey with
    | some x => x
    | none =>
      match v.resp with
      | some (JVal.jobj fs) => toPy (lookup v.field fs)
      | _ => toPy v.resp
  match v.resp with
  | some (JVal.jobj fs) =>
    match lookup v.field fs with
    | some (JVal.jobj inner) =>
      if hasKey "value" inner then toPy (lookup "value" inner) else fallback
    | _ => fallback
  | _ => fallback

/-- An entry of the `cleaned` list: `{model_id, value}` (the `raw` back
pointer is dropped; no downstream code reads it). -/
structure Cleaned where
  model_id : String
  value : JVal

/-- The `cleaned` list: non-`None` candidate values in input order. -/
def cleanedOf (vals : List Holder) : List Cleaned :=
  vals.filterMap (fun v =>
    match getValue v with
    | JVal.jnull => none
    | x => some ⟨v.model_id, x⟩)

/-- Result triple of `compare_field_values`; `tag` is the `reason` /
`method` string of the returned details dict. -/
structure CmpRes where
  agree : Bool
  value : Option JVal
  tag : String

/-- `compare_field_values(vals, numeric_rel, numeric_abs)` from
consensus_engine.py. -/
def compare_field_values (vals : List Holder)
    (numeric_rel numeric_abs : ℚ) : CmpRes :=
  let cleaned := cleanedOf vals
  match cleaned with
  | [] => ⟨false, none, "no_values"⟩
  | c0 :: rest =>
    if (c0 :: rest).all (fun x => is_number x.value) then
      let base := (pyFloat c0.value).getD 0
      if rest.all (fun x =>
          numeric_close base ((pyFloat x.value).getD 0) numeric_rel numeric_abs) then
        ⟨true, some (JVal.jnum base), "numeric"⟩
      else
        ⟨false, none, "numeric_disagree"⟩
    else
      let first := norm c0.value
      if rest.all (fun x => norm x.value = first) then
        ⟨true, some c0.value, "string"⟩
      else
        ⟨false, none, "string_disagree"⟩

/-- One element of `model_results` handed to `compare_outputs`: a Python
dict with keys `model_id` and (optionally) `resp`.  `resp = none` means the
`resp` key is absent. -/
structure ModelResult where
  model_id : String
  resp : Option JVal

/-- `mr.get('resp') or {}`: a missing or falsy `resp` coalesces to `{}`. -/
def getResp (mr : ModelResult) : JVal :=
  match mr.resp with
  | none => JVal.jobj []
  | some v => if isFalsy v then JVal.jobj [] else v

/-- `resp.keys()` when the coalesced response is a dict, else nothing
(`if isinstance(resp, dict): fields.update(resp.keys())`). -/
def respKeys (mr : ModelResult) : List String :=
  match getResp mr with
  | JVal.jobj fs => fs.map Prod.fst
  | _ => []

/-- Code-point order on char lists: how Python compares strings. -/
def charListLt : List Char → List Char → Bool
  | [], [] => false
  | [], _ :: _ => true
  | _ :: _, [] => false
  | c :: cs, d :: ds =>
    if c.toNat < d.toNat then true
    else if d.toNat < c.toNat then false
    else charListLt cs ds

/-- Python string `<` (lexicographic by code point). -/
def strLt (a b : String) : Bool := charListLt a.data b.data

/-- Insert into a sorted duplicate-free list, keeping it sorted and
duplicate-free (the Python `set` + `sorted`). -/
def insertSorted (x : String) : List String → List String
  | [] => [x]
  | y :: ys =>
    if x = y then y :: ys
    else if strLt x y then x :: y :: ys
    else y :: insertSorted x ys

/-- `sorted(set(l))`. -/
def sortDedup (l : List String) : List String :=
  l.foldl (fun acc k => insertSorted k acc) []

/-- The `sorted(fields)` loop domain of `compare_outputs`: the union of the
keys of every (coalesced, dict-shaped) response. -/
def sortedFieldNames (results : List ModelResult) : List String :=
  sortDedup (results.flatMap respKeys)

/-- The per-field `vals` list built by `compare_outputs`:
`{'model_id': model_id, 'field': f, 'value': None, 'resp': resp}` for each
model result, `resp` coalesced by `or {}`. -/
def mkHolders (results : List ModelResult) (f : String) : List Holder :=
  results.map (fun mr => ⟨mr.model_id, f, some JVal.jnull, some (getResp mr)⟩)

/-- `agreed[f] = {'value': v, 'evidence': vals}`. -/
structure AgreedEntry where
  value : Option JVal
  evidence : List Holder

/-- `disagreed[f] = {'candidates': vals, 'details': details}`; `tag` is the
`reason`/`method` string of the details dict. -/
structure DisagreedEntry where
  candidates : List Holder
  tag : String

/-- Result of `compare_outputs`: `{'agreed': ..., 'disagreed': ...}`, each
an insertion-ordered mapping. -/
structure Report where
  agreed : List (String × AgreedEntry)
  disagreed : List (String × DisagreedEntry)

/-- The `for f in sorted(fields)` loop body of `compare_outputs`, peeled
off the (already sorted) field list. -/
def aggregateFields (results : List ModelResult) (rel abs_ : ℚ) :
    List String → Report
  | [] => ⟨[], []⟩
  | f :: fs =>
    let rep := aggregateFields results rel abs_ fs
    let vals := mkHolders results f
    let r := compare_field_values vals rel abs_
    if r.agree then
      { rep with agreed := (f, ⟨r.value, vals⟩) :: rep.agreed }
    else
      { rep with disagreed := (f, ⟨vals, r.tag⟩) :: rep.disagreed }

/-- `compare_outputs(model_results, thresholds)` from consensus_engine.py.
The thresholds dict carries exactly two numbers
(`numeric_relative_tol`, default 0.01; `numeric_abs_tol`, default 1.0);
they are passed here directly. -/
def compare_outputs (results : List ModelResult) (rel abs_ : ℚ) : Report :=
  aggregateFields results rel abs_ (sortedFieldNames results)

/-- Default `numeric_relative_tol`. -/
def default_numeric_rel : ℚ := 1 / 100

/-- Default `numeric_abs_tol`. -/
def default_numeric_abs : ℚ := 1

/-! ### Backend fan-out (run_etl_ensemble.run_one_pdf, MultiModelClient) -/

/-- Outcome of one `mmc.extract(mid, ...)` call: either the call raised
(unknown model id, client-construction failure) or it returned a dict whose
`resp` is the structured response or an internally captured
`{"error": str(e)}` marker. -/
inductive ExtractOutcome where
  | raised (msg : String) : ExtractOutcome
  | returned (resp : JVal) : ExtractOutcome

/-- The `try/except` around `client.structured` inside
`MultiModelClient.extract`: an exception becomes `{"error": str(e)}`. -/
def captureCall (outcome : Except String JVal) : JVal :=
  match outcome with
  | .ok r => r
  | .error e => JVal.jobj [("error", JVal.jstr e)]

/-- One iteration of run_one_pdf's round-1 loop: append the extract output
on success, or `{"model_id": mid, "resp": {"error": str(e)}}` when the
extract call itself raised. -/
def mkFanoutResult (mid : String) : ExtractOutcome → ModelResult
  | .returned resp => ⟨mid, some resp⟩
  | .raised e => ⟨mid, some (JVal.jobj [("error", JVal.jstr e)])⟩

/-- run_one_pdf's round-1 fan-out loop (lines 118-128): one result per
requested model id, in input order, failures captured per id. -/
def fanout (call : String → ExtractOutcome) (ids : List String) :
    List ModelResult :=
  ids.map (fun mid => mkFanoutResult mid (call mid))

/-- `reextract` from focused_reextractor.py: a sequential loop over the
same model ids calling `multi_client.extract` with the focus prompt, with
NO try/except — the first raising call aborts the whole round. -/
def reextractResults (call2 : String → ExtractOutcome) :
    List String → Except String (List ModelResult)
  | [] => .ok []
  | mid :: rest =>
    match call2 mid with
    | .raised e => .error e
    | .returned resp =>
      (reextractResults call2 rest).map (fun rs => ⟨mid, some resp⟩ :: rs)

/-! ### Review recorder (review_manager.save_review_case) -/

/-- `os.path.basename`: the component after the last `/`. -/
def basename (p : String) : String :=
  (p.splitOn "/").foldl (fun _ s => s) p

/-- The case dict written by `save_review_case`:
`{'pdf': pdf_path, 'base': base, 'disagreements': disagreements,
'timestamp': datetime.utcnow().isoformat()}`.  The wall clock is passed in
as `timestamp`; note the `disagreements` slot holds whatever dict the
caller passed. -/
structure ReviewCase where
  pdf : String
  base : String
  disagreements : Report
  timestamp : String

/-- `save_review_case(out_dir, pdf_path, disagreements)`: returns the
storage key (file name) it writes to, together with the serialized case. -/
def save_review_case (out_dir pdf_path : String) (disagreements : Report)
    (now : String) : String × ReviewCase :=
  let base := basename pdf_path
  (out_dir ++ "/" ++ base ++ ".review.json",
   ⟨pdf_path, base, disagreements, now⟩)

/-! ### The per-document pipeline (run_etl_ensemble.run_one_pdf)

The PDF-parse and prompt-build steps are external collaborators; the
embedding starts at the fan-out, with `call` / `call2` standing for the
remote behaviour of `mmc.extract` on the round-1 prompt and on the focus
prompt respectively. -/

/-- The value run_one_pdf returns (its `status` plus the data each branch
carries that the claims mention). -/
inductive RunOutcome where
  | errorStatus (message : String) : RunOutcome
  | okDirect (rep1 : Report) : RunOutcome
  | okAfter (rep1 rep2 : Report) : RunOutcome
  | review (rep1 rep2 : Report) (reviewKey : String) (case : ReviewCase) :
      RunOutcome

/-- run_one_pdf from the fan-out on: round-1 loop, `compare_outputs`,
optional focused re-extraction (which may itself raise, uncaught), second
`compare_outputs`, and `save_review_case` when round 2 still disagrees. -/
def run_one_pdf (pdf_path output_dir : String) (ids : List String)
    (call call2 : String → ExtractOutcome) (rel abs_ : ℚ) (now : String) :
    Except String RunOutcome :=
  if ids.isEmpty then
    .ok (.errorStatus "No models configured in llm_backends.yml")
  else
    let results := fanout call ids
    let comp := compare_outputs results rel abs_
    if comp.disagreed.isEmpty then
      .ok (.okDirect comp)
    else
      match reextractResults call2 ids with
      | .error e => .error e
      | .ok re_results =>
        let comp2 := compare_outputs re_results rel abs_
        if comp2.disagreed.isEmpty then
          .ok (.okAfter comp comp2)
        else
          let saved := save_review_case output_dir pdf_path comp2 now
          .ok (.review comp comp2 saved.1 saved.2)

/-- Projection: the round-2 report the pipeline produced, when there was a
round 2. -/
def round2Report : Except String RunOutcome → Option Report
  | .ok (.okAfter _ r2) => some r2
  | .ok (.review _ r2 _ _) => some r2
  | _ => none

/-- Projection: the review case the pipeline recorded, if any. -/
def reviewCaseOf : Except String RunOutcome → Option ReviewCase
  | .ok (.review _ _ _ c) => some c
  | _ => none

/-! ### Environment side channel (MultiModelClient.extract) -/

/-- One `models:` entry of the multi-model config. -/
structure ModelCfg where
  id : String
  provider : String
  model_name : Option String
  api_key_env : Option String

/-- What `MultiModelClient.extract` does to the process-wide
`OPENAI_MODEL` environment variable, together with its outcome.
`envDuring` is the variable's value while the backend call runs (what a
concurrent call observes); `envAfter` its value when extract finishes or
its exception escapes. -/
structure ExtractTrace where
  envDuring : Option String
  envAfter : Option String
  outcome : ExtractOutcome

/-- MultiModelClient.extract (llm_multi_client.py lines 55-86), with the
process environment made explicit.  `ctorErr = some e` models
`_get_client_for` raising (unsupported provider, missing key) — that
exception escapes BEFORE the `# restore env` lines run.  `call` models the
`client.structured` outcome, whose exception is captured into
`{"error": str(e)}`, after which the previous value is restored
(`pop` when it was absent, assignment otherwise). -/
def extract_envTrace (models : List ModelCfg) (model_id : String)
    (ctorErr : Option String) (call : Except String JVal)
    (envBefore : Option String) : ExtractTrace :=
  match models.find? (fun m => m.id == model_id) with
  | none => ⟨envBefore, envBefore, .raised ("Unknown model id: " ++ model_id)⟩
  | some mc =>
    let prev := envBefore
    let env1 : Option String :=
      match mc.model_name with
      | some m => if m = "" then envBefore else some m
      | none => envBefore
    match ctorErr with
    | some e => ⟨env1, env1, .raised e⟩
    | none => ⟨env1, prev, .returned (captureCall call)⟩

/-! ### Infrastructure lemmas -/

theorem mem_insertSorted (a x : String) (l : List String) :
    a ∈ insertSorted x l ↔ a = x ∨ a ∈ l := by
  induction l with
  | nil => simp [insertSorted]
  | cons y ys ih =>
    unfold insertSorted
    split_ifs with h1 h2
    · subst h1
      simp only [List.mem_cons]
      tauto
    · simp only [List.mem_cons]
    · simp only [List.mem_cons, ih]
      tauto

theorem mem_foldl_insertSorted (a : String) (l acc : List String) :
    a ∈ l.foldl (fun acc k => insertSorted k acc) acc ↔ a ∈ l ∨ a ∈ acc := by
  induction l generalizing acc with
  | nil => simp
  | cons x xs ih =>
    simp only [List.foldl_cons, ih, mem_insertSorted, List.mem_cons]
    tauto

theorem mem_sortDedup (a : String) (l : List String) :
    a ∈ sortDedup l ↔ a ∈ l := by
  simp [sortDedup, mem_foldl_insertSorted]

theorem mem_sortedFieldNames (f : String) (results : List ModelResult) :
    f ∈ sortedFieldNames results ↔ ∃ mr ∈ results, f ∈ respKeys mr := by
  simp [sortedFieldNames, mem_sortDedup, List.mem_flatMap]

theorem mem_agreed_aggregate (results : List ModelResult) (rel a : ℚ)
    (fs : List String) (f : String) :
    f ∈ (aggregateFields results rel a fs).agreed.map Prod.fst ↔
      f ∈ fs ∧
        (compare_field_values (mkHolders results f) rel a).agree = true := by
  induction fs with
  | nil => simp [aggregateFields]
  | cons g gs ih =>
    by_cases hfg : f = g
    · subst hfg
      by_cases hg :
          (compare_field_values (mkHolders results f) rel a).agree = true
      · simp [aggregateFields, hg]
      · simp [aggregateFields, hg, ih]
    · by_cases hg :
          (compare_field_values (mkHolders results g) rel a).agree = true
      · simp [aggregateFields, hg, ih, hfg]
      · simp [aggregateFields, hg, ih, hfg]

theorem mem_disagreed_aggregate (results : List ModelResult) (rel a : ℚ)
    (fs : List String) (f : String) :
    f ∈ (aggregateFields results rel a fs).disagreed.map Prod.fst ↔
      f ∈ fs ∧
        (compare_field_values (mkHolders results f) rel a).agree = false := by
  induction fs with
  | nil => simp [aggregateFields]
  | cons g gs ih =>
    by_cases hfg : f = g
    · subst hfg
      by_cases hg :
          (compare_field_values (mkHolders results f) rel a).agree = true
      · simp [aggregateFields, hg, ih]
      · simp [aggregateFields, hg, ih]
    · by_cases hg :
          (compare_field_values (mkHolders results g) rel a).agree = true
      · simp [aggregateFields, hg, ih, hfg]
      · simp [aggregateFields, hg, ih, hfg]

theorem mem_agreed_compare_outputs (results : List ModelResult) (rel a : ℚ)
    (f : String) :
    f ∈ (compare_outputs results rel a).agreed.map Prod.fst ↔
      f ∈ sortedFieldNames results ∧
        (compare_field_values (mkHolders results f) rel a).agree = true :=
  mem_agreed_aggregate results rel a (sortedFieldNames results) f

theorem mem_disagreed_compare_outputs (results : List ModelResult)
    (rel a : ℚ) (f : String) :
    f ∈ (compare_outputs results rel a).disagreed.map Prod.fst ↔
      f ∈ sortedFieldNames results ∧
        (compare_field_values (mkHolders results f) rel a).agree = false :=
  mem_disagreed_aggregate results rel a (sortedFieldNames results) f

theorem compare_field_values_no_values (vals : List Holder) (rel a : ℚ)
    (h : cleanedOf vals = []) :
    compare_field_values vals rel a = ⟨false, none, "no_values"⟩ := by
  simp [compare_field_values, h]

theorem compare_field_values_numeric (vals : List Holder) (rel a : ℚ)
    (c0 : Cleaned) (rest : List Cleaned)
    (hc : cleanedOf vals = c0 :: rest)
    (hnum : (cleanedOf vals).all (fun c => is_number c.value) = true) :
    compare_field_values vals rel a =
      (if rest.all (fun x =>
          numeric_close ((pyFloat c0.value).getD 0)
            ((pyFloat x.value).getD 0) rel a) then
        ⟨true, some (JVal.jnum ((pyFloat c0.value).getD 0)), "numeric"⟩
      else ⟨false, none, "numeric_disagree"⟩) := by
  rw [hc] at hnum
  simp [compare_field_values, hc, hnum]

theorem compare_field_values_string (vals : List Holder) (rel a : ℚ)
    (c0 : Cleaned) (rest : List Cleaned)
    (hc : cleanedOf vals = c0 :: rest)
    (hnn : (cleanedOf vals).all (fun c => is_number c.value) = false) :
    compare_field_values vals rel a =
      (if rest.all (fun x => norm x.value = norm c0.value) then
        ⟨true, some c0.value, "string"⟩
      else ⟨false, none, "string_disagree"⟩) := by
  rw [hc] at hnn
  simp [compare_field_values, hc, hnn]

theorem numeric_close_iff (a b rel t : ℚ) :
    numeric_close a b rel t = true ↔
      |a - b| ≤ max t (rel * max |a| |b|) := by
  simp [numeric_close, max_comm]

/-! ### Claim theorems: the Field Comparator (C3, C4, C10) -/

/-- Claim C3: on a candidate list whose non-null values are all
numeric-parseable (tagged holders unwrapped by the candidate extraction),
the comparator takes the first cleaned candidate as baseline and agrees
iff every other candidate b satisfies
`|a-b| <= max(abs_tol, rel_tol * max(|a|,|b|))` against the baseline a;
on agreement the canonical value is the baseline's parsed numeric value,
not an average. -/
theorem C3_numeric_first_baseline_tolerance (vals : List Holder)
    (rel a : ℚ) (c0 : Cleaned) (rest : List Cleaned)
    (hc : cleanedOf vals = c0 :: rest)
    (hnum : (cleanedOf vals).all (fun c => is_number c.value) = true) :
    ((compare_field_values vals rel a).agree = true ↔
      ∀ b ∈ rest,
        |(pyFloat c0.value).getD 0 - (pyFloat b.value).getD 0| ≤
          max a (rel * max |(pyFloat c0.value).getD 0|
            |(pyFloat b.value).getD 0|)) ∧
    ((compare_field_values vals rel a).agree = true →
      (compare_field_values vals rel a).value =
        some (JVal.jnum ((pyFloat c0.value).getD 0))) := by
  rw [compare_field_values_numeric vals rel a c0 rest hc hnum]
  by_cases hall : rest.all (fun x =>
      numeric_close ((pyFloat c0.value).getD 0)
        ((pyFloat x.value).getD 0) rel a) = true
  · rw [if_pos hall]
    refine ⟨?_, fun _ => rfl⟩
    simp only [show (true = true) ↔ True by simp, true_iff]
    intro b hb
    exact (numeric_close_iff _ _ _ _).mp (List.all_eq_true.mp hall b hb)
  · rw [if_neg hall]
    refine ⟨?_, fun h => by cases h⟩
    constructor
    · intro h; cases h
    · intro h
      exact absurd (List.all_eq_true.mpr fun b hb =>
        (numeric_close_iff _ _ _ _).mpr (h b hb)) hall

/-- Claim C4: on a candidate list with at least one non-numeric cleaned
value, the comparator takes the string branch: agreement iff every
candidate's normalization (whitespace-collapsed, trimmed, case-folded)
equals the first's, with the canonical value being the original,
non-normalized first candidate value. -/
theorem C4_string_branch (vals : List Holder) (rel a : ℚ)
    (c0 : Cleaned) (rest : List Cleaned)
    (hc : cleanedOf vals = c0 :: rest)
    (hnn : (cleanedOf vals).all (fun c => is_number c.value) = false) :
    ((compare_field_values vals rel a).agree = true ↔
      ∀ b ∈ rest, norm b.value = norm c0.value) ∧
    ((compare_field_values vals rel a).agree = true →
      (compare_field_values vals rel a).value = some c0.value) := by
  rw [compare_field_values_string vals rel a c0 rest hc hnn]
  by_cases hall : rest.all (fun x => norm x.value = norm c0.value) = true
  · rw [if_pos hall]
    refine ⟨?_, fun _ => rfl⟩
    simp only [List.all_eq_true, decide_eq_true_eq] at hall
    simp only [show (true = true) ↔ True by simp, true_iff]
    exact hall
  · rw [if_neg hall]
    refine ⟨?_, fun h => by cases h⟩
    constructor
    · intro h; cases h
    · intro h
      exact absurd (List.all_eq_true.mpr fun b hb =>
        decide_eq_true (h b hb)) hall

/-- Claim C10: a candidate list with exactly one non-null candidate always
agrees, the canonical value being that candidate's value (parsed to its
numeric value when numeric-parseable). -/
theorem C10_single_candidate_consensus (vals : List Holder) (rel a : ℚ)
    (c : Cleaned) (hc : cleanedOf vals = [c]) :
    (compare_field_values vals rel a).agree = true ∧
    (compare_field_values vals rel a).value =
      some (if is_number c.value then JVal.jnum ((pyFloat c.value).getD 0)
        else c.value) := by
  by_cases hn : is_number c.value = true
  · have hnum : (cleanedOf vals).all (fun x => is_number x.value) = true := by
      rw [hc]; simp [hn]
    rw [compare_field_values_numeric vals rel a c [] hc hnum]
    simp [hn]
  · have hnn : (cleanedOf vals).all (fun x => is_number x.value) = false := by
      rw [hc]; simp [Bool.not_eq_true] at hn; simp [hn]
    rw [compare_field_values_string vals rel a c [] hc hnn]
    simp [Bool.not_eq_true] at hn
    simp [hn]

/-- The spec example `[72.0, 72.3, 71.9]` as direct-call candidates. -/
def vals72 : List Holder :=
  [⟨"m1", "x", some (JVal.jnum 72), none⟩,
   ⟨"m2", "x", some (JVal.jnum (723/10)), none⟩,
   ⟨"m3", "x", some (JVal.jnum (719/10)), none⟩]

/-- Witness for C3: `[72.0, 72.3, 71.9]` at the default tolerances agrees
with canonical value 72. -/
theorem C3_witness :
    (compare_field_values vals72 default_numeric_rel
      default_numeric_abs).agree = true ∧
    (compare_field_values vals72 default_numeric_rel
      default_numeric_abs).value = some (JVal.jnum 72) := by
  have h := C3_numeric_first_baseline_tolerance vals72 default_numeric_rel
    default_numeric_abs ⟨"m1", JVal.jnum 72⟩
    [⟨"m2", JVal.jnum (723/10)⟩, ⟨"m3", JVal.jnum (719/10)⟩] rfl rfl
  have hag := h.1.mpr (by
    intro b hb
    fin_cases hb <;>
    · simp only [pyFloat, Option.getD_some]
      rw [le_max_iff]
      left
      rw [abs_sub_le_iff]
      constructor <;> norm_num [default_numeric_abs])
  exact ⟨hag, h.2 hag⟩

/-- The spec example string candidates. -/
def valsCd : List Holder :=
  [⟨"m1", "x", some (JVal.jstr "Cadmium Selenide"), none⟩,
   ⟨"m2", "x", some (JVal.jstr "cadmium   selenide "), none⟩]

/-- Witness for C4: `["Cadmium Selenide", "cadmium   selenide "]` agrees,
canonical value the original first candidate. -/
theorem C4_witness :
    (compare_field_values valsCd default_numeric_rel
      default_numeric_abs).agree = true ∧
    (compare_field_values valsCd default_numeric_rel
      default_numeric_abs).value = some (JVal.jstr "Cadmium Selenide") := by
  have h := C4_string_branch valsCd default_numeric_rel default_numeric_abs
    ⟨"m1", JVal.jstr "Cadmium Selenide"⟩
    [⟨"m2", JVal.jstr "cadmium   selenide "⟩] rfl rfl
  have hag := h.1.mpr (by decide)
  exact ⟨hag, h.2 hag⟩

/-- A single-backend candidate list. -/
def valsSingle : List Holder := [⟨"m", "x", some (JVal.jnum 5), none⟩]

/-- Witness for C10: a lone numeric candidate 5 agrees at value 5. -/
theorem C10_witness :
    cleanedOf valsSingle = [⟨"m", JVal.jnum 5⟩] ∧
    (compare_field_values valsSingle default_numeric_rel
      default_numeric_abs).agree = true ∧
    (compare_field_values valsSingle default_numeric_rel
      default_numeric_abs).value = some (JVal.jnum 5) := by
  have h := C10_single_candidate_consensus valsSingle default_numeric_rel
    default_numeric_abs ⟨"m", JVal.jnum 5⟩ rfl
  exact ⟨rfl, h.1, h.2⟩

/-! ### Claim theorems: the Consensus Aggregator (C1, C2, C5) -/

/-- A batch where both backends answer the field `temp` with the plain
(non-tagged) value `"72"`. -/
def resultsC1 : List ModelResult :=
  [⟨"m1", some (JVal.jobj [("temp", JVal.jstr "72")])⟩,
   ⟨"m2", some (JVal.jobj [("temp", JVal.jstr "72")])⟩]

/-- Claim C1 (code bug): a plain value stored under the field name is
never used as the backend's candidate.  `compare_outputs` builds every
holder with a `value` key set to `None`, so `compare_field_values`'s
`v.get('value') if 'value' in v else resp.get(...)` fallback to the
response is dead code: the candidate extraction yields `None` for both
backends' plain `"72"`, the cleaned list is empty, and the field is
reported as a `no_values` disagreement instead of agreeing at 72. -/
theorem C1_plain_values_never_read :
    (compare_outputs resultsC1 default_numeric_rel
      default_numeric_abs).agreed = [] ∧
    (compare_outputs resultsC1 default_numeric_rel
      default_numeric_abs).disagreed.map Prod.fst = ["temp"] ∧
    compare_field_values (mkHolders resultsC1 "temp") default_numeric_rel
      default_numeric_abs = ⟨false, none, "no_values"⟩ ∧
    getValue ⟨"m1", "temp", some JVal.jnull,
      some (JVal.jobj [("temp", JVal.jstr "72")])⟩ = JVal.jnull :=
  ⟨rfl, rfl, rfl, rfl⟩

/-- A batch whose only response maps field `f` to `None`: every candidate
for `f` is null. -/
def resultsC2 : List ModelResult :=
  [⟨"a", some (JVal.jobj [("f", JVal.jnull)])⟩]

/-- Counterexample to claim C2: a field (`f`) whose candidate values are
null across all backends IS reported — it lands in the disagreed mapping,
rather than being excluded from both mappings as the claim states. -/
theorem C2_counterexample :
    (compare_outputs resultsC2 default_numeric_rel
      default_numeric_abs).agreed.map Prod.fst = [] ∧
    (compare_outputs resultsC2 default_numeric_rel
      default_numeric_abs).disagreed.map Prod.fst = ["f"] :=
  ⟨rfl, rfl⟩

/-- Claim C2 (amended): a field with zero non-null candidates never
agrees, and it appears in the disagreed mapping (tagged `no_values`)
exactly when it occurs as a key of some response mapping; only a field
absent from every response mapping is excluded from both. -/
theorem C2_amended_all_null_field_disagrees (results : List ModelResult)
    (rel a : ℚ) (f : String)
    (h : cleanedOf (mkHolders results f) = []) :
    f ∉ (compare_outputs results rel a).agreed.map Prod.fst ∧
    (f ∈ (compare_outputs results rel a).disagreed.map Prod.fst ↔
      f ∈ sortedFieldNames results) ∧
    compare_field_values (mkHolders results f) rel a =
      ⟨false, none, "no_values"⟩ := by
  have hc := compare_field_values_no_values (mkHolders results f) rel a h
  refine ⟨?_, ?_, hc⟩
  · rw [mem_agreed_compare_outputs]
    simp [hc]
  · rw [mem_disagreed_compare_outputs]
    simp [hc]

/-- Witness for the amended C2, at the all-null batch `resultsC2`. -/
theorem C2_amended_witness :
    cleanedOf (mkHolders resultsC2 "f") = [] ∧
    ("f" ∉ (compare_outputs resultsC2 default_numeric_rel
        default_numeric_abs).agreed.map Prod.fst ∧
      ("f" ∈ (compare_outputs resultsC2 default_numeric_rel
          default_numeric_abs).disagreed.map Prod.fst ↔
        "f" ∈ sortedFieldNames resultsC2) ∧
      compare_field_values (mkHolders resultsC2 "f") default_numeric_rel
        default_numeric_abs = ⟨false, none, "no_values"⟩) :=
  ⟨rfl, C2_amended_all_null_field_disagrees resultsC2 default_numeric_rel
    default_numeric_abs "f" rfl⟩

/-- Modelled from the spec's words ("the union of the keys of the
non-error `response` mappings"): the keys a response contributes under the
claim, an error marker (a mapping with an `error` key) contributing
none. -/
def specNonErrorKeys (mr : ModelResult) : List String :=
  match getResp mr with
  | JVal.jobj fs => if hasKey "error" fs then [] else fs.map Prod.fst
  | _ => []

/-- A batch whose only response is an error marker. -/
def resultsC5 : List ModelResult :=
  [⟨"a", some (JVal.jobj [("error", JVal.jstr "boom")])⟩]

/-- Counterexample to claim C5: the keys of an error-marker response DO
contribute field names.  With a single errored backend the union of
non-error response keys is empty, yet the report contains the field
`error` (in disagreed). -/
theorem C5_counterexample :
    resultsC5.flatMap specNonErrorKeys = [] ∧
    (compare_outputs resultsC5 default_numeric_rel
      default_numeric_abs).disagreed.map Prod.fst = ["error"] :=
  ⟨rfl, rfl⟩

/-- Claim C5 (amended): the field names of the report are exactly the
union of the keys of ALL dict-shaped responses — error markers included —
and every such field appears in exactly one of agreed and disagreed. -/
theorem C5_amended_fields_partition (results : List ModelResult)
    (rel a : ℚ) (f : String) :
    ((f ∈ (compare_outputs results rel a).agreed.map Prod.fst ∨
      f ∈ (compare_outputs results rel a).disagreed.map Prod.fst) ↔
      ∃ mr ∈ results, f ∈ respKeys mr) ∧
    ¬(f ∈ (compare_outputs results rel a).agreed.map Prod.fst ∧
      f ∈ (compare_outputs results rel a).disagreed.map Prod.fst) := by
  rw [mem_agreed_compare_outputs, mem_disagreed_compare_outputs,
    ← mem_sortedFieldNames]
  constructor
  · by_cases hag :
        (compare_field_values (mkHolders results f) rel a).agree = true
    · simp [hag]
    · simp [hag]
  · rintro ⟨⟨-, h1⟩, ⟨-, h2⟩⟩
    rw [h1] at h2
    cases h2

/-! ### Claim theorems: env side channel and fan-out (C6, C7) -/

/-- A one-model configuration. -/
def modelsC6 : List ModelCfg := [⟨"m1", "openai", some "gpt-4o", none⟩]

/-- Counterexample to claim C6: `MultiModelClient.extract` DOES pass the
model name through process-wide state.  Starting from an unset
`OPENAI_MODEL` (`none`), the variable reads `some "gpt-4o"` while the
backend call runs (observable by concurrent calls), and on an invocation
whose client construction raises it is still `some "gpt-4o"` after the
call — the state is not the same before and after. -/
theorem C6_counterexample :
    (extract_envTrace modelsC6 "m1" none (.ok (JVal.jobj []))
      none).envDuring = some "gpt-4o" ∧
    (extract_envTrace modelsC6 "m1" (some "Unsupported provider: x")
      (.ok (JVal.jobj [])) none).envAfter = some "gpt-4o" ∧
    (none : Option String) ≠ some "gpt-4o" :=
  ⟨rfl, rfl, by simp⟩

/-- Claim C6 (amended): extract temporarily overwrites the process-wide
`OPENAI_MODEL` variable around each call, but restores the prior value
whenever client construction succeeds — the structured call's exception
being captured before the restore — so only a client-construction
exception leaves the variable overwritten. -/
theorem C6_amended_env_restored_unless_ctor_raises (models : List ModelCfg)
    (mid : String) (call : Except String JVal) (env : Option String) :
    (extract_envTrace models mid none call env).envAfter = env := by
  cases hf : models.find? (fun m => m.id == mid) with
  | none => simp [extract_envTrace, hf]
  | some mc => simp [extract_envTrace, hf]

/-- Claim C7: the round-1 fan-out yields exactly one BackendResult per
requested id, in input order; each position's result is a function of that
id's own call outcome alone, and a raising call is captured as that id's
`{error: message}` response without affecting any other position; the
failed backend then contributes only null candidates to every field's
comparison. -/
theorem C7_fanout_per_id_isolated (call : String → ExtractOutcome)
    (ids : List String) :
    (fanout call ids).length = ids.length ∧
    (∀ i : ℕ, (fanout call ids).get? i =
      (ids.get? i).map (fun mid => mkFanoutResult mid (call mid))) ∧
    (∀ mid e, call mid = .raised e →
      mkFanoutResult mid (call mid) =
        ⟨mid, some (JVal.jobj [("error", JVal.jstr e)])⟩) ∧
    (∀ mid e f,
      getValue ⟨mid, f, some JVal.jnull,
        some (JVal.jobj [("error", JVal.jstr e)])⟩ = JVal.jnull) := by
  refine ⟨by simp [fanout], fun i => ?_, fun mid e h => by rw [h]; rfl,
    fun mid e f => ?_⟩
  · simp [fanout]
  · by_cases hf : "error" = f
    · subst hf; rfl
    · simp [getValue, JVal.lookup, JVal.toPy, hf]

/-- A behaviour where backend `a` answers and every other backend
raises. -/
def callC7 : String → ExtractOutcome := fun mid =>
  if mid = "a" then .returned (JVal.jobj [("f", JVal.jnum 1)])
  else .raised "boom"

/-- Witness for C7 at a two-backend round whose second backend raises. -/
theorem C7_witness :
    (fanout callC7 ["a", "b"]).length = 2 ∧
    mkFanoutResult "b" (callC7 "b") =
      ⟨"b", some (JVal.jobj [("error", JVal.jstr "boom")])⟩ := by
  have h := C7_fanout_per_id_isolated callC7 ["a", "b"]
  exact ⟨h.1, h.2.2.1 "b" "boom" rfl⟩

/-! ### Claim theorems: the two-round pipeline (C8, C9) -/

theorem fanout_model_ids (call : String → ExtractOutcome)
    (ids : List String) :
    (fanout call ids).map ModelResult.model_id = ids := by
  have hmid : ∀ mid, (mkFanoutResult mid (call mid)).model_id = mid := by
    intro mid; cases call mid <;> rfl
  simp only [fanout, List.map_map]
  calc (ids.map (ModelResult.model_id ∘ fun mid =>
          mkFanoutResult mid (call mid)))
      = ids.map id := List.map_congr_left (fun mid _ => hmid mid)
    _ = ids := List.map_id ids

theorem reextract_model_ids (call2 : String → ExtractOutcome) :
    ∀ (ids : List String) (re : List ModelResult),
      reextractResults call2 ids = .ok re →
      re.map ModelResult.model_id = ids := by
  intro ids
  induction ids with
  | nil =>
    intro re h
    simp [reextractResults] at h
    subst h
    rfl
  | cons mid rest ih =>
    intro re h
    unfold reextractResults at h
    cases hc : call2 mid with
    | raised e => rw [hc] at h; exact Except.noConfusion h
    | returned resp =>
      rw [hc] at h
      cases hr : reextractResults call2 rest with
      | error e => rw [hr] at h; exact Except.noConfusion h
      | ok rs =>
        rw [hr] at h
        simp [Except.map] at h
        subst h
        simp [ih rs hr]

/-- Claim C8: once round 1 disagrees, the focused re-extraction round runs
over the SAME backend id list as round 1 (both rounds' result lists carry
exactly `ids`, in order), and the round-2 report the pipeline carries is a
function of the round-2 call behaviour alone — no round-1 candidate enters
it. -/
theorem C8_round2_same_ids_pure (pdf out : String) (ids : List String)
    (call call2 : String → ExtractOutcome) (rel a : ℚ) (now : String)
    (h1 : (compare_outputs (fanout call ids) rel a).disagreed.isEmpty =
      false) :
    round2Report (run_one_pdf pdf out ids call call2 rel a now) =
      (match reextractResults call2 ids with
        | .error _ => none
        | .ok re => some (compare_outputs re rel a)) ∧
    (∀ re, reextractResults call2 ids = .ok re →
      re.map ModelResult.model_id = ids) ∧
    (fanout call ids).map ModelResult.model_id = ids := by
  refine ⟨?_, fun re h => reextract_model_ids call2 ids re h,
    fanout_model_ids call ids⟩
  cases ids with
  | nil =>
    exact absurd h1 (by simp [fanout, compare_outputs, sortedFieldNames,
      sortDedup, aggregateFields])
  | cons id0 idrest =>
    unfold run_one_pdf
    simp only [List.isEmpty_cons, Bool.false_eq_true, if_false, h1]
    cases hre : reextractResults call2 (id0 :: idrest) with
    | error e => simp [round2Report]
    | ok re =>
      cases hre2 : (compare_outputs re rel a).disagreed.isEmpty with
      | true => simp [round2Report, hre2]
      | false => simp [round2Report, hre2]

/-- A round-1 behaviour that always disagrees (the single field `x` has
only a null candidate, hence a `no_values` disagreement). -/
def call1C8 : String → ExtractOutcome :=
  fun _ => .returned (JVal.jobj [("x", JVal.jnull)])

/-- A round-2 behaviour with empty responses (round 2 fully agrees). -/
def call2C8 : String → ExtractOutcome := fun _ => .returned (JVal.jobj [])

/-- Witness for C8 at a concrete disagreeing round 1. -/
theorem C8_witness :
    (compare_outputs (fanout call1C8 ["a"]) default_numeric_rel
      default_numeric_abs).disagreed.isEmpty = false ∧
    round2Report (run_one_pdf "p.pdf" "out" ["a"] call1C8 call2C8
      default_numeric_rel default_numeric_abs "T") =
      (match reextractResults call2C8 ["a"] with
        | .error _ => none
        | .ok re => some (compare_outputs re default_numeric_rel
            default_numeric_abs)) := by
  have h := C8_round2_same_ids_pure "p.pdf" "out" ["a"] call1C8 call2C8
    default_numeric_rel default_numeric_abs "T" rfl
  exact ⟨rfl, h.1⟩

/-- Claim C9 (amended): a review case is recorded exactly when the
round-2 report's disagreed mapping is non-empty; the case carries the
document path, the FULL round-2 consensus report under its
`disagreements` slot (which contains the disagreed part with all
candidates — but also the agreed part), and the creation timestamp; its
storage key is `out_dir/basename(pdf).review.json`, a pure function of
the document reference, so re-running the same document overwrites the
same key. -/
theorem C9_amended_review_case (pdf out : String) (ids : List String)
    (call call2 : String → ExtractOutcome) (rel a : ℚ) (now : String) :
    (∀ r1 r2 key c,
      run_one_pdf pdf out ids call call2 rel a now =
        .ok (.review r1 r2 key c) →
      r2.disagreed.isEmpty = false ∧
      key = out ++ "/" ++ basename pdf ++ ".review.json" ∧
      c = ⟨pdf, basename pdf, r2, now⟩) ∧
    (∀ re,
      (compare_outputs (fanout call ids) rel a).disagreed.isEmpty = false →
      reextractResults call2 ids = .ok re →
      (compare_outputs re rel a).disagreed.isEmpty = false →
      run_one_pdf pdf out ids call call2 rel a now =
        .ok (.review (compare_outputs (fanout call ids) rel a)
          (compare_outputs re rel a)
          (out ++ "/" ++ basename pdf ++ ".review.json")
          ⟨pdf, basename pdf, compare_outputs re rel a, now⟩)) := by
  constructor
  · intro r1 r2 key c h
    simp only [run_one_pdf] at h
    cases hids : ids.isEmpty with
    | true => rw [hids, if_pos rfl] at h; simp at h
    | false =>
      rw [hids, if_neg Bool.false_ne_true] at h
      cases hd1 :
          (compare_outputs (fanout call ids) rel a).disagreed.isEmpty with
      | true => rw [hd1, if_pos rfl] at h; simp at h
      | false =>
        rw [hd1, if_neg Bool.false_ne_true] at h
        cases hre : reextractResults call2 ids with
        | error e => simp only [hre] at h; exact Except.noConfusion h
        | ok re =>
          simp only [hre] at h
          cases hd2 : (compare_outputs re rel a).disagreed.isEmpty with
          | true => rw [hd2, if_pos rfl] at h; simp at h
          | false =>
            rw [hd2, if_neg Bool.false_ne_true] at h
            simp only [save_review_case, Except.ok.injEq,
              RunOutcome.review.injEq] at h
            obtain ⟨-, h2, hkey, hcase⟩ := h
            subst h2
            exact ⟨hd2, hkey.symm, hcase.symm⟩
  · intro re hd1 hre hd2
    have hids : ids.isEmpty = false := by
      cases ids with
      | nil =>
        exact absurd hd1 (by simp [fanout, compare_outputs,
          sortedFieldNames, sortDedup, aggregateFields])
      | cons x xs => rfl
    simp only [run_one_pdf]
    rw [hids, if_neg Bool.false_ne_true, hd1, if_neg Bool.false_ne_true]
    simp only [hre]
    rw [hd2, if_neg Bool.false_ne_true]
    rfl

/-- A round-2 behaviour answering an agreeing tagged field `g` and a
null-valued field `d` (so round 2 still has a disagreement). -/
def call2C9 : String → ExtractOutcome :=
  fun _ => .returned (JVal.jobj
    [("g", JVal.jobj [("value", JVal.jnum 5)]), ("d", JVal.jnull)])

/-- Witness for the amended C9: a concrete run whose round 2 still
disagrees records exactly the review case the theorem describes. -/
theorem C9_witness :
    run_one_pdf "p.pdf" "out" ["a"] call1C8 call2C9 default_numeric_rel
        default_numeric_abs "T" =
      .ok (.review
        (compare_outputs (fanout call1C8 ["a"]) default_numeric_rel
          default_numeric_abs)
        (compare_outputs [⟨"a", some (JVal.jobj
          [("g", JVal.jobj [("value", JVal.jnum 5)]),
           ("d", JVal.jnull)])⟩] default_numeric_rel default_numeric_abs)
        ("out" ++ "/" ++ basename "p.pdf" ++ ".review.json")
        ⟨"p.pdf", basename "p.pdf",
          compare_outputs [⟨"a", some (JVal.jobj
            [("g", JVal.jobj [("value", JVal.jnum 5)]),
             ("d", JVal.jnull)])⟩] default_numeric_rel default_numeric_abs,
          "T"⟩) :=
  (C9_amended_review_case "p.pdf" "out" ["a"] call1C8 call2C9
    default_numeric_rel default_numeric_abs "T").2
    [⟨"a", some (JVal.jobj [("g", JVal.jobj [("value", JVal.jnum 5)]),
      ("d", JVal.jnull)])⟩] rfl rfl rfl

/-- Counterexample to claim C9: the recorded case's `disagreements` slot
is NOT the round-2 report's disagreed part — run_one_pdf passes the whole
round-2 report (`comp2`) to save_review_case, so the serialized
`disagreements` value also contains the agreed mapping (here the agreed
field `g` sits inside it, alongside the lone disagreed field `d`). -/
theorem C9_counterexample :
    (reviewCaseOf (run_one_pdf "p.pdf" "out" ["a"] call1C8 call2C9
        default_numeric_rel default_numeric_abs "T")).map
      (fun c => c.disagreements.agreed.map Prod.fst) = some ["g"] ∧
    (reviewCaseOf (run_one_pdf "p.pdf" "out" ["a"] call1C8 call2C9
        default_numeric_rel default_numeric_abs "T")).map
      (fun c => c.disagreements.disagreed.map Prod.fst) = some ["d"] :=
  ⟨rfl, rfl⟩

end EtlEnsemble
